import Mathlib

/-!
Shallow embedding of the Shivam-bot conversation core
(src/database.py, src/bot_handlers.py, src/venice_ai.py).

Machine conventions used throughout:
* Database state is a pair of tables (lists of rows) plus a logical clock.
  SQL `CURRENT_TIMESTAMP` values are modelled by the clock, which strictly
  increases with every write, so `ORDER BY timestamp DESC` is exactly
  reverse insertion order and is modelled as `List.reverse`.
* All Python string helpers (`str.strip`, `str.lower`, `in`, slicing,
  `re.sub` for the two concrete patterns of `format_ai_response_improved`)
  are embedded as executable functions on `List Char`.
-/

/-- Python `str.isspace` characters relevant to `str.strip()`. -/
def pySpace (c : Char) : Bool :=
  c = ' ' || c = '\t' || c = '\n' || c = '\r' || c = '\x0b' || c = '\x0c'

/-- Python `str.strip()` on a character list. -/
def pyStrip (cs : List Char) : List Char :=
  ((cs.dropWhile pySpace).reverse.dropWhile pySpace).reverse

/-- Python `str.strip()` on a `String`. -/
def pyStripStr (s : String) : String :=
  String.mk (pyStrip s.data)

/-- ASCII lowering of one character (the messages the analyzer receives are
ASCII; Python `str.lower()` agrees with this on ASCII). -/
def lowerChar (c : Char) : Char :=
  if 'A' ≤ c && c ≤ 'Z' then Char.ofNat (c.toNat + 32) else c

/-- Python `str.lower()` (ASCII fragment). -/
def pyLower (s : String) : String :=
  String.mk (s.data.map lowerChar)

/-- Does `cs` start with `pat`? -/
def startsW : List Char → List Char → Bool
  | _, [] => true
  | [], _ :: _ => false
  | c :: cs, d :: ds => c = d && startsW cs ds

/-- Python substring containment `pat in cs`. -/
def hasSub : List Char → List Char → Bool
  | [], pat => pat.isEmpty
  | c :: rest, pat => startsW (c :: rest) pat || hasSub rest pat

/-- Python `pat in s` on `String`s. -/
def hasSubStr (s pat : String) : Bool :=
  hasSub s.data pat.data

/-- Python slicing `s[:n]`. -/
def pyTake (n : Nat) (s : String) : String :=
  String.mk (s.data.take n)

/-- Python `s.startswith(pat)` on `String`s. -/
def startsWStr (s pat : String) : Bool :=
  startsW s.data pat.data

/-- One `{"role": .., "content": ..}` dict, as stored in `conversations`
rows, returned by `get_conversation_history` and consumed by
`prepare_enhanced_prompt` and `prepare_payload`. -/
structure Msg where
  role : String
  content : String
deriving DecidableEq

/-! ## Database model (src/database.py)

`init_database` creates three tables.  `context_memory` has only the
autoincrement `id` primary key: the schema declares NO uniqueness
constraint on `(user_id, context_type)` (src/database.py lines 48-58 and
91-101), which matters for `store_context_memory` below. -/

/-- One row of the `conversations` table (src/database.py lines 79-88):
autoincrement id is implicit in list position, `timestamp` is the logical
clock value at insertion time. -/
structure ConvRow where
  user_id : Int
  role : String
  content : String
  timestamp : Nat
deriving DecidableEq

/-- One row of the `context_memory` table (src/database.py lines 91-101).
No uniqueness constraint beyond the implicit autoincrement id. -/
structure CtxRow where
  user_id : Int
  context_type : String
  context_data : String
  created_at : Nat
  updated_at : Nat
deriving DecidableEq

/-- The persistent state of `BotDatabase`: the two tables used by the
conversation core, plus the logical clock standing for
`CURRENT_TIMESTAMP` (strictly increasing across writes). -/
structure DBState where
  conversations : List ConvRow
  context_memory : List CtxRow
  clock : Nat
deriving DecidableEq

/-- Freshly initialised database: both tables empty. -/
def initState : DBState :=
  { conversations := [], context_memory := [], clock := 0 }

/-- `BotDatabase.add_conversation` (src/database.py lines 164-187): plain
`INSERT INTO conversations (user_id, role, content)`, timestamp defaulted
to `CURRENT_TIMESTAMP`. -/
def add_conversation (user_id : Int) (role content : String) (s : DBState) : DBState :=
  { s with
    conversations := s.conversations ++ [⟨user_id, role, content, s.clock⟩],
    clock := s.clock + 1 }

/-- Rows of `conversations` belonging to `user_id`, in insertion order. -/
def userConvRows (user_id : Int) (s : DBState) : List ConvRow :=
  s.conversations.filter (fun r => r.user_id == user_id)

/-- The row set produced by `get_conversation_history`'s query
(src/database.py lines 195-209): `ORDER BY timestamp DESC LIMIT limit`.
Timestamps strictly increase with insertion order (they are logical-clock
values), so descending-timestamp order is reverse insertion order; the
Python code then applies `reversed(results)` to return oldest-first. -/
def recentRows (user_id : Int) (limit : Nat) (s : DBState) : List ConvRow :=
  ((userConvRows user_id s).reverse.take limit).reverse

/-- `BotDatabase.get_conversation_history` (src/database.py lines 189-218):
returns `{"role": .., "content": ..}` dicts, oldest first, at most `limit`
of them; an empty list when nothing is stored (and also on any database
exception, which the model does not produce). -/
def get_conversation_history (user_id : Int) (limit : Nat) (s : DBState) :
    List Msg :=
  (recentRows user_id limit s).map (fun r => ⟨r.role, r.content⟩)

/-- `BotDatabase.store_context_memory` (src/database.py lines 241-266),
sqlite branch: `INSERT OR REPLACE INTO context_memory (user_id,
context_type, context_data) VALUES (?, ?, ?)`.  Because the table carries
no uniqueness constraint on `(user_id, context_type)` — only the
autoincrement id primary key — `INSERT OR REPLACE` never finds a
conflicting row and behaves as a plain append with a fresh id.  (The
postgres branch instead names `ON CONFLICT (user_id, context_type)`, a
constraint that does not exist, so that statement raises at run time, the
exception is swallowed, and nothing is stored at all.)  The sqlite
behaviour is the one modelled. -/
def store_context_memory (user_id : Int) (context_type context_data : String)
    (s : DBState) : DBState :=
  { s with
    context_memory :=
      s.context_memory ++ [⟨user_id, context_type, context_data, s.clock, s.clock⟩],
    clock := s.clock + 1 }

/-- `BotDatabase.get_context_memory` (src/database.py lines 268-312):
rows for the user (optionally filtered by `context_type`), `ORDER BY
updated_at DESC`; `updated_at` values strictly increase with the clock, so
this is reverse insertion order.  Returns `(type, data)` pairs (the
`updated` field of the Python dict is carried by the row order). -/
def get_context_memory (user_id : Int) (ctypeFilter : Option String)
    (s : DBState) : List (String × String) :=
  let rows := s.context_memory.filter (fun r =>
    r.user_id == user_id &&
      (match ctypeFilter with
       | some t => r.context_type == t
       | none => true))
  rows.reverse.map (fun r => (r.context_type, r.context_data))

/-- `BotDatabase.clear_conversation` (src/database.py lines 220-239):
deletes the user's rows from both `conversations` and `context_memory`. -/
def clear_conversation (user_id : Int) (s : DBState) : DBState :=
  { s with
    conversations := s.conversations.filter (fun r => !(r.user_id == user_id)),
    context_memory := s.context_memory.filter (fun r => !(r.user_id == user_id)) }

/-- Result shape of `get_enhanced_conversation_context`. -/
structure EnhancedContext where
  conversation_history : List Msg
  context_memory : List (String × String)
  has_context : Bool
deriving DecidableEq

/-- `BotDatabase.get_enhanced_conversation_context` (src/database.py lines
314-323): history with limit 15, all context memory, and
`has_context = (len(history) > 0 or len(memory) > 0)`. -/
def get_enhanced_conversation_context (user_id : Int) (s : DBState) :
    EnhancedContext :=
  let h := get_conversation_history user_id 15 s
  let m := get_context_memory user_id none s
  { conversation_history := h
    context_memory := m
    has_context := decide (0 < h.length) || decide (0 < m.length) }

/-! ## Handlers (src/bot_handlers.py) -/

/-- First trigger list of `analyze_and_store_context`
(src/bot_handlers.py line 146). -/
def projectKeywords : List String :=
  ["make", "create", "build", "tool", "project", "app"]

/-- Second trigger list of `analyze_and_store_context`
(src/bot_handlers.py line 155). -/
def improveKeywords : List String :=
  ["better", "improve", "enhance", "add", "modify", "change"]

/-- The sequence of `store_context_memory(user_id, type, data)` calls that
`analyze_and_store_context` (src/bot_handlers.py lines 141-160) performs
for a given message, in program order.  The three rules test plain
substring containment on the lowercased message and are independent.
`projectData` is the classification of the first rule (python / web /
general) with the 100-character cut of the message appended. -/
def projectData (message : String) : String :=
  let ml := pyLower message
  if hasSubStr ml "python" then "Python project: " ++ pyTake 100 message
  else if hasSubStr ml "website" || hasSubStr ml "web" then
    "Web project: " ++ pyTake 100 message
  else "General project: " ++ pyTake 100 message

def analyzeUpserts (message : String) : List (String × String) :=
  let ml := pyLower message
  (if projectKeywords.any (fun k => hasSubStr ml k) then
    [("current_project", projectData message)]
   else []) ++
  (if improveKeywords.any (fun k => hasSubStr ml k) then
    [("last_request", "Improvement request: " ++ pyTake 100 message)]
   else []) ++
  (if hasSubStr ml "like" || hasSubStr ml "want" || hasSubStr ml "prefer" then
    [("user_preferences", pyTake 150 message)]
   else [])

/-- `BotHandlers.analyze_and_store_context` applied to the database state:
performs the upserts computed by `analyzeUpserts` in order. -/
def analyze_and_store_context (user_id : Int) (message : String) (s : DBState) : DBState :=
  (analyzeUpserts message).foldl
    (fun st p => store_context_memory user_id p.1 p.2 st) s

/-- Rendering of one context-memory item inside
`prepare_enhanced_prompt`'s summary loop (src/bot_handlers.py lines
169-175): known types map to one summary line, unknown types to none. -/
def renderCtx (p : String × String) : List String :=
  if p.1 == "current_project" then ["Current project context: " ++ p.2]
  else if p.1 == "last_request" then ["Previous request: " ++ p.2]
  else if p.1 == "user_preferences" then ["User preference: " ++ p.2]
  else []

/-- `BotHandlers.prepare_enhanced_prompt` (src/bot_handlers.py lines
162-187): when context memory is non-empty and at least one item renders,
prepend a single system message whose content joins the first 3 summary
lines with " | "; then append the conversation history unchanged.  The
`current_message` parameter is accepted but never used. -/
def prepare_enhanced_prompt (conversation_history : List Msg)
    (context_memory : List (String × String)) (current_message : String) : List Msg :=
  let enhanced :=
    if context_memory.isEmpty then []
    else
      let context_summary := (context_memory.map renderCtx).flatten
      if context_summary.isEmpty then []
      else [⟨"system", "Context from previous conversations: " ++
              String.intercalate " | " (context_summary.take 3)⟩]
  enhanced ++ conversation_history

/-! ## Response formatter (src/bot_handlers.py lines 209-237)

`format_ai_response_improved` applies, in order: `re.sub` with pattern
 three backticks, then `(\w*)`, then an optional newline, then a lazy
`(.*?)` up to the next three backticks (DOTALL), replaced by
`<pre><code class="lang">stripped</code></pre>`; then `re.sub` of the
inline pattern backtick `([^backtick]+)` backtick to `<code>..</code>`;
then collapsing 3-or-more newlines to 2; then `str.strip()`.  The regex
passes are embedded as leftmost-match scan-and-replace loops. -/

/-- Python regex `\w` (ASCII fragment: letters, digits, underscore). -/
def isWordChar (c : Char) : Bool :=
  c.isAlphanum || c = '_'

/-- Split at the first occurrence of three consecutive backticks:
returns (text before it, text after it). -/
def findFence : List Char → Option (List Char × List Char)
  | '`' :: '`' :: '`' :: rest => some ([], rest)
  | c :: rest => (findFence rest).map (fun p => (c :: p.1, p.2))
  | [] => none

/-- Leftmost match of the fenced-code-block pattern: returns
(prefix before the match, language tag, raw code group, remainder after
the closing fence).  `none` when the pattern has no match: if the first
opening fence has no closing fence after its language tag and optional
newline, then no three-backtick run exists anywhere later (the skipped
tag/newline characters are never backticks), so no match can start
anywhere. -/
def findBlock (cs : List Char) :
    Option (List Char × List Char × List Char × List Char) :=
  match findFence cs with
  | none => none
  | some (pre, after3) =>
    let lang := after3.takeWhile isWordChar
    let r1 := after3.dropWhile isWordChar
    let r2 := match r1 with
      | '\n' :: t => t
      | _ => r1
    match findFence r2 with
    | none => none
    | some (code, rest) => some (pre, lang, code, rest)

/-- The replacement text built by `code_replacement`
(src/bot_handlers.py line 222). -/
def blockHtml (lang code : List Char) : List Char :=
  ("<pre><code class=\"").data ++ lang ++ ("\">").data ++ code ++ ("</code></pre>").data

/-- `replace_code_blocks`: repeated leftmost replacement, fuelled (the
fuel `cs.length + 1` always suffices since each step consumes at least
the six fence characters). -/
def codeBlockPass : Nat → List Char → List Char
  | 0, cs => cs
  | fuel + 1, cs =>
    match findBlock cs with
    | none => cs
    | some (pre, lang, code, rest) =>
        pre ++ blockHtml lang (pyStrip code) ++ codeBlockPass fuel rest

/-- Leftmost match of the inline-code pattern (one backtick, one-or-more
non-backtick characters, one backtick): returns (prefix, content group,
remainder). -/
def findInline : List Char → Option (List Char × List Char × List Char)
  | [] => none
  | '`' :: rest =>
      let content := rest.takeWhile (fun c => !(c = '`'))
      if content.isEmpty then
        (findInline rest).map (fun p => ('`' :: p.1, p.2.1, p.2.2))
      else
        match rest.drop content.length with
        | '`' :: rest2 => some ([], content, rest2)
        | _ => (findInline rest).map (fun p => ('`' :: p.1, p.2.1, p.2.2))
  | c :: rest => (findInline rest).map (fun p => (c :: p.1, p.2.1, p.2.2))

/-- The replacement text of `replace_inline_code`
(src/bot_handlers.py line 228). -/
def inlineHtml (content : List Char) : List Char :=
  ("<code>").data ++ content ++ ("</code>").data

/-- `replace_inline_code`: repeated leftmost replacement, fuelled. -/
def inlinePass : Nat → List Char → List Char
  | 0, cs => cs
  | fuel + 1, cs =>
    match findInline cs with
    | none => cs
    | some (pre, content, rest) => pre ++ inlineHtml content ++ inlinePass fuel rest

/-- `re.sub` of three-or-more consecutive newlines to exactly two
(src/bot_handlers.py line 235), fuelled. -/
def collapseNl : Nat → List Char → List Char
  | 0, cs => cs
  | fuel + 1, cs =>
    match cs with
    | [] => []
    | '\n' :: rest =>
        let run := rest.takeWhile (fun c => c = '\n')
        let afterRun := rest.dropWhile (fun c => c = '\n')
        (if run.length + 1 ≥ 3 then ['\n', '\n'] else '\n' :: run) ++
          collapseNl fuel afterRun
    | c :: rest => c :: collapseNl fuel rest

/-- `BotHandlers.format_ai_response_improved` (src/bot_handlers.py lines
209-237): block pass, inline pass, newline collapse, strip. -/
def format_ai_response_improved (response : String) : String :=
  let s1 := codeBlockPass (response.data.length + 1) response.data
  let s2 := inlinePass (s1.length + 1) s1
  let s3 := collapseNl (s2.length + 1) s2
  String.mk (pyStrip s3)

/-- The transformation the specification calls "only whitespace-collapsed
and trimmed": collapse runs of 3-or-more newlines to exactly 2, then trim
leading and trailing whitespace. -/
def collapseTrimOnly (s : String) : String :=
  String.mk (pyStrip (collapseNl (s.data.length + 1) s.data))

/-! ## Inference client (src/venice_ai.py)

`VeniceAI.get_ai_response` posts the payload (fresh uuid-based ids, the
prompt with the new user message appended, fixed generation parameters)
with `timeout=30`, then decodes `response.text` line by line.  The
request envelope and the uuid randomness affect only the outbound
payload, never the decode logic, so the transport is abstracted into a
`ProviderOutcome`.  The per-line decode is: `json.loads` first; on
`json.JSONDecodeError`, `eval` of the line ("as in original code"); on
`SyntaxError`/`AttributeError`/`TypeError` from that, skip the line. -/

/-- JSON values, as produced by `json.loads`. -/
inductive JVal where
  | jnull
  | jbool (b : Bool)
  | jnum (raw : String)
  | jstr (s : String)
  | jarr (xs : List JVal)
  | jobj (fields : List (String × JVal))

/-- JSON insignificant whitespace. -/
def jsonWs (c : Char) : Bool :=
  c = ' ' || c = '\t' || c = '\n' || c = '\r'

/-- Hex digit value. -/
def hexVal (c : Char) : Option Nat :=
  if '0' ≤ c && c ≤ '9' then some (c.toNat - 48)
  else if 'a' ≤ c && c ≤ 'f' then some (c.toNat - 97 + 10)
  else if 'A' ≤ c && c ≤ 'F' then some (c.toNat - 65 + 10)
  else none

/-- Body of a JSON string after the opening quote: returns the decoded
characters and the remainder after the closing quote.  Escapes follow RFC
8259 (lone surrogate `\u` escapes decode to the null replacement that
`Char.ofNat` yields; no claim depends on them). -/
def parseJStrBody : List Char → Option (List Char × List Char)
  | [] => none
  | '"' :: rest => some ([], rest)
  | '\\' :: '"' :: r => (parseJStrBody r).map (fun p => ('"' :: p.1, p.2))
  | '\\' :: '\\' :: r => (parseJStrBody r).map (fun p => ('\\' :: p.1, p.2))
  | '\\' :: '/' :: r => (parseJStrBody r).map (fun p => ('/' :: p.1, p.2))
  | '\\' :: 'b' :: r => (parseJStrBody r).map (fun p => ('\x08' :: p.1, p.2))
  | '\\' :: 'f' :: r => (parseJStrBody r).map (fun p => ('\x0c' :: p.1, p.2))
  | '\\' :: 'n' :: r => (parseJStrBody r).map (fun p => ('\n' :: p.1, p.2))
  | '\\' :: 'r' :: r => (parseJStrBody r).map (fun p => ('\r' :: p.1, p.2))
  | '\\' :: 't' :: r => (parseJStrBody r).map (fun p => ('\t' :: p.1, p.2))
  | '\\' :: 'u' :: h1 :: h2 :: h3 :: h4 :: r =>
      match hexVal h1, hexVal h2, hexVal h3, hexVal h4 with
      | some a, some b, some c, some d =>
          (parseJStrBody r).map
            (fun p => (Char.ofNat (((a * 16 + b) * 16 + c) * 16 + d) :: p.1, p.2))
      | _, _, _, _ => none
  | '\\' :: _ => none
  | c :: rest =>
      if c.toNat < 32 then none
      else (parseJStrBody rest).map (fun p => (c :: p.1, p.2))

/-- Characters a JSON number token can contain. -/
def numChar (c : Char) : Bool :=
  c.isDigit || c = '-' || c = '+' || c = '.' || c = 'e' || c = 'E'

/-- Consume one-or-more digits. -/
def eatDigits : List Char → Option (List Char)
  | c :: rest => if c.isDigit then some (rest.dropWhile Char.isDigit) else none
  | [] => none

/-- Consume the JSON integer part (`0` or a nonzero digit then digits). -/
def eatInt : List Char → Option (List Char)
  | '0' :: rest => some rest
  | c :: rest =>
      if c.isDigit && !(c = '0') then some (rest.dropWhile Char.isDigit) else none
  | [] => none

/-- Consume an optional JSON fraction part. -/
def eatFrac : List Char → Option (List Char)
  | '.' :: r => eatDigits r
  | cs => some cs

/-- Consume an optional JSON exponent part. -/
def eatExp : List Char → Option (List Char)
  | c :: r =>
      if c = 'e' || c = 'E' then
        match r with
        | s :: r2 => if s = '+' || s = '-' then eatDigits r2 else eatDigits (s :: r2)
        | [] => none
      else some (c :: r)
  | [] => some []

/-- Is `cs` exactly one well-formed JSON number token? -/
def validJNum (cs : List Char) : Bool :=
  let cs1 := match cs with
    | '-' :: r => r
    | _ => cs
  match eatInt cs1 with
  | none => false
  | some r2 =>
    match eatFrac r2 with
    | none => false
    | some r3 =>
      match eatExp r3 with
      | none => false
      | some r4 => r4.isEmpty

/-- Parse a JSON number token at the head of `cs`. -/
def parseJNum (cs : List Char) : Option (List Char × List Char) :=
  let tok := cs.takeWhile numChar
  if validJNum tok then some (tok, cs.dropWhile numChar) else none

/-- Parser mode: a whole value, the fields of an object after its first
key position, or the elements of an array after its first element
position. -/
inductive PMode where
  | val
  | fields
  | elems

/-- Fuelled recursive-descent JSON parser.  In `fields` mode the result is
`jobj` of the parsed fields, in `elems` mode `jarr` of the parsed
elements.  The fuel only bounds recursion depth; `jsonLoads` passes
enough for any input. -/
def parseJ : Nat → PMode → List Char → Option (JVal × List Char)
  | 0, _, _ => none
  | fuel + 1, PMode.val, cs =>
    match cs.dropWhile jsonWs with
    | '"' :: rest => (parseJStrBody rest).map (fun p => (JVal.jstr (String.mk p.1), p.2))
    | '{' :: rest =>
        (match rest.dropWhile jsonWs with
         | '}' :: r2 => some (JVal.jobj [], r2)
         | r2 => parseJ fuel PMode.fields r2)
    | '[' :: rest =>
        (match rest.dropWhile jsonWs with
         | ']' :: r2 => some (JVal.jarr [], r2)
         | r2 => parseJ fuel PMode.elems r2)
    | 't' :: 'r' :: 'u' :: 'e' :: rest => some (JVal.jbool true, rest)
    | 'f' :: 'a' :: 'l' :: 's' :: 'e' :: rest => some (JVal.jbool false, rest)
    | 'n' :: 'u' :: 'l' :: 'l' :: rest => some (JVal.jnull, rest)
    | cs2 => (parseJNum cs2).map (fun p => (JVal.jnum (String.mk p.1), p.2))
  | fuel + 1, PMode.fields, cs =>
    match cs with
    | '"' :: rest =>
      (match parseJStrBody rest with
       | none => none
       | some (key, r1) =>
         match r1.dropWhile jsonWs with
         | ':' :: r2 =>
           (match parseJ fuel PMode.val r2 with
            | none => none
            | some (v, r3) =>
              match r3.dropWhile jsonWs with
              | ',' :: r4 =>
                  (match parseJ fuel PMode.fields (r4.dropWhile jsonWs) with
                   | some (JVal.jobj fs, r5) =>
                       some (JVal.jobj ((String.mk key, v) :: fs), r5)
                   | _ => none)
              | '}' :: r4 => some (JVal.jobj [(String.mk key, v)], r4)
              | _ => none)
         | _ => none)
    | _ => none
  | fuel + 1, PMode.elems, cs =>
    match parseJ fuel PMode.val cs with
    | none => none
    | some (v, r1) =>
      match r1.dropWhile jsonWs with
      | ',' :: r2 =>
          (match parseJ fuel PMode.elems r2 with
           | some (JVal.jarr vs, r3) => some (JVal.jarr (v :: vs), r3)
           | _ => none)
      | ']' :: r2 => some (JVal.jarr [v], r2)
      | _ => none

/-- `json.loads`: parse one JSON value and require only whitespace after
it. -/
def jsonLoads (s : String) : Option JVal :=
  match parseJ (4 * s.data.length + 8) PMode.val s.data with
  | some (v, rest) => if (rest.dropWhile jsonWs).isEmpty then some v else none
  | none => none

/-- The single-quote character (Python's other string delimiter). -/
def squote : Char := Char.ofNat 39

/-- Body of a Python string literal with closing delimiter `q`.  Escape
handling is minimal (the delimiter, backslash, `n`, `r`, `t`); other
escapes fail the parse.  This only feeds the eval-fallback value model
below, on which no claim depends beyond its existence. -/
def parsePStrBody (q : Char) : List Char → Option (List Char × List Char)
  | [] => none
  | '\\' :: e :: r =>
      if e = q || e = '\\' then (parsePStrBody q r).map (fun p => (e :: p.1, p.2))
      else if e = 'n' then (parsePStrBody q r).map (fun p => ('\n' :: p.1, p.2))
      else if e = 'r' then (parsePStrBody q r).map (fun p => ('\r' :: p.1, p.2))
      else if e = 't' then (parsePStrBody q r).map (fun p => ('\t' :: p.1, p.2))
      else none
  | c :: r =>
      if c = q then some ([], r)
      else (parsePStrBody q r).map (fun p => (c :: p.1, p.2))

/-- Fuelled parser for Python literal expressions (dicts, lists, strings
with either quote, `True`/`False`/`None`, numbers): the VALUE `eval(line)`
produces when the line happens to be such a literal — the shape the
Venice response stream actually carries when a line is not strict JSON.
When the line is not a literal of this fragment the model returns `none`,
standing for the `SyntaxError`/`AttributeError`/`TypeError` arm that
skips the line.  What this model deliberately cannot express is `eval`'s
behaviour on a line that is executable code: that is precisely the
liability addressed by claim C2. -/
def parseP : Nat → PMode → List Char → Option (JVal × List Char)
  | 0, _, _ => none
  | fuel + 1, PMode.val, cs =>
    match cs.dropWhile jsonWs with
    | '"' :: rest => (parsePStrBody '"' rest).map (fun p => (JVal.jstr (String.mk p.1), p.2))
    | '{' :: rest =>
        (match rest.dropWhile jsonWs with
         | '}' :: r2 => some (JVal.jobj [], r2)
         | r2 => parseP fuel PMode.fields r2)
    | '[' :: rest =>
        (match rest.dropWhile jsonWs with
         | ']' :: r2 => some (JVal.jarr [], r2)
         | r2 => parseP fuel PMode.elems r2)
    | 'T' :: 'r' :: 'u' :: 'e' :: rest => some (JVal.jbool true, rest)
    | 'F' :: 'a' :: 'l' :: 's' :: 'e' :: rest => some (JVal.jbool false, rest)
    | 'N' :: 'o' :: 'n' :: 'e' :: rest => some (JVal.jnull, rest)
    | c :: rest =>
        if c = squote then
          (parsePStrBody squote rest).map (fun p => (JVal.jstr (String.mk p.1), p.2))
        else (parseJNum (c :: rest)).map (fun p => (JVal.jnum (String.mk p.1), p.2))
    | [] => none
  | fuel + 1, PMode.fields, cs =>
    match parseP fuel PMode.val cs with
    | some (JVal.jstr key, r1) =>
      (match r1.dropWhile jsonWs with
       | ':' :: r2 =>
         (match parseP fuel PMode.val r2 with
          | none => none
          | some (v, r3) =>
            match r3.dropWhile jsonWs with
            | ',' :: r4 =>
                (match parseP fuel PMode.fields (r4.dropWhile jsonWs) with
                 | some (JVal.jobj fs, r5) => some (JVal.jobj ((key, v) :: fs), r5)
                 | _ => none)
            | '}' :: r4 => some (JVal.jobj [(key, v)], r4)
            | _ => none)
       | _ => none)
    | _ => none
  | fuel + 1, PMode.elems, cs =>
    match parseP fuel PMode.val cs with
    | none => none
    | some (v, r1) =>
      match r1.dropWhile jsonWs with
      | ',' :: r2 =>
          (match parseP fuel PMode.elems r2 with
           | some (JVal.jarr vs, r3) => some (JVal.jarr (v :: vs), r3)
           | _ => none)
      | ']' :: r2 => some (JVal.jarr [v], r2)
      | _ => none

/-- Value model of the `eval(line.strip())` fallback: the literal the line
denotes, when it is one (see `parseP`). -/
def pyEvalModel (s : String) : Option JVal :=
  match parseP (4 * s.data.length + 8) PMode.val s.data with
  | some (v, rest) => if (rest.dropWhile jsonWs).isEmpty then some v else none
  | none => none

/-- `isinstance(data, dict) and "content" in data` followed by
`data.get("content", "")`: the string carried under `"content"`.
`json.loads`/`eval` keep the LAST binding of a duplicated key, hence the
reversed lookup.  A non-string `content` would raise `TypeError` in
`full_text += content` and land in the generic exception handler; no
claim exercises that path and it is not value-modelled. -/
def dictContent : JVal → Option String
  | JVal.jobj fields =>
      (match (fields.reverse).lookup "content" with
       | some (JVal.jstr s) => some s
       | _ => none)
  | _ => none

/-- What the per-line decoder of `get_ai_response` (src/venice_ai.py lines
78-95) does with one line of the response body. -/
inductive LineFate where
  | blankSkipped
  | jsonDecoded
  | evalExecuted
deriving DecidableEq

/-- Dispatch structure of the decode loop: a blank line is skipped
(line 79); a line that `json.loads` accepts is decoded structurally
(lines 82-85); ANY other line is passed to `eval` (line 89) — its text is
executed as Python code. -/
def decodeLineFate (line : String) : LineFate :=
  if (pyStrip line.data).isEmpty then LineFate.blankSkipped
  else if (jsonLoads (String.mk (pyStrip line.data))).isSome then LineFate.jsonDecoded
  else LineFate.evalExecuted

/-- Python `str.splitlines()` line-break characters. -/
def lineBreakChar (c : Char) : Bool :=
  c = '\n' || c = '\r' || c = '\x0b' || c = '\x0c' || c = '\x1c' ||
    c = '\x1d' || c = '\x1e' || c = '\x85' || c = '\u2028' || c = '\u2029'

/-- Python `str.splitlines()`, fuelled. -/
def pySplitlines : Nat → List Char → List (List Char)
  | 0, _ => []
  | _, [] => []
  | fuel + 1, cs =>
      let line := cs.takeWhile (fun c => !(lineBreakChar c))
      match cs.drop line.length with
      | [] => [line]
      | '\r' :: '\n' :: r => line :: pySplitlines fuel r
      | _ :: r => line :: pySplitlines fuel r

/-- The content a single non-blank stripped line contributes to
`full_text` (src/venice_ai.py lines 80-95): `json.loads` value if it
parses, else the `eval` fallback's literal value, else nothing (skip). -/
def lineContent (line : List Char) : String :=
  match jsonLoads (String.mk line) with
  | some v =>
      (match dictContent v with
       | some c => c
       | none => "")
  | none =>
      match pyEvalModel (String.mk line) with
      | some v =>
          (match dictContent v with
           | some c => c
           | none => "")
      | none => ""

/-- The whole-body decode of `get_ai_response`:
`response.text.strip().splitlines()`, skip blank lines, concatenate each
line's content. -/
def parseBody (body : String) : String :=
  let stripped := pyStrip body.data
  let lines := pySplitlines (stripped.length + 1) stripped
  String.join (lines.map (fun l =>
    if (pyStrip l).isEmpty then "" else lineContent (pyStrip l)))

/-- Canned reply for a non-200 provider status (src/venice_ai.py line 74). -/
def providerErrorMsg : String :=
  "❌ Sorry, I'm having trouble connecting to my AI brain. Please try again in a moment."

/-- Canned reply for `requests.exceptions.Timeout` (src/venice_ai.py line 104). -/
def timeoutMsg : String :=
  "⏰ The AI is taking too long to respond. Please try again."

/-- Canned reply for `requests.exceptions.ConnectionError` (line 107). -/
def connErrorMsg : String :=
  "🌐 Connection error. Please check your internet connection and try again."

/-- Canned reply for any other exception (src/venice_ai.py line 110). -/
def unexpectedErrorMsg : String :=
  "❌ An unexpected error occurred. Please try again later."

/-- Canned reply when the decoded text is only whitespace (line 98). -/
def emptyParseMsg : String :=
  "🤖 I received your message but couldn't generate a proper response. Please try rephrasing your question."

/-- Reply sent by `handle_ai_chat` on `asyncio.TimeoutError`
(src/bot_handlers.py line 136). -/
def timedOutReplyMsg : String :=
  "⏰ Request timed out. Please try again."

/-- Abstraction of the transport: what the `requests.post` call (and body
decode context) does.  `otherError` stands for any exception outside the
two named `requests` exception classes. -/
inductive ProviderOutcome where
  | timeout
  | connError
  | otherError
  | response (statusCode : Nat) (body : String)

/-- `VeniceAI.get_ai_response` (src/venice_ai.py lines 59-110) as a
function of the provider outcome: every branch returns a plain string
through the one return channel. -/
def get_ai_response (o : ProviderOutcome) : String :=
  match o with
  | ProviderOutcome.timeout => timeoutMsg
  | ProviderOutcome.connError => connErrorMsg
  | ProviderOutcome.otherError => unexpectedErrorMsg
  | ProviderOutcome.response statusCode body =>
      if !(statusCode = 200) then providerErrorMsg
      else
        let full_text := parseBody body
        if (pyStrip full_text.data).isEmpty then emptyParseMsg
        else String.mk (pyStrip full_text.data)

/-- Result of `asyncio.wait_for(asyncio.to_thread(...), timeout=30.0)`
(src/bot_handlers.py lines 121-124): either the 30-second ceiling expires
(`asyncio.TimeoutError`) or the thread's string result arrives. -/
inductive InferOutcome where
  | timedOut
  | value (s : String)

/-- `BotHandlers.handle_ai_chat` (src/bot_handlers.py lines 100-139),
restricted to database state and the reply text.  In program order:
read the enhanced context, run `analyze_and_store_context`, assemble the
prompt, await the inference call under the 30-second ceiling.  On
`asyncio.TimeoutError` the handler replies with the canned timeout
message and reaches no `add_conversation` call; on a string result it
persists the user turn and the assistant turn (the `asyncio.gather` pair,
modelled in program order) and replies with the formatted response
prefixed by the robot marker (`send_improved_response`, happy path). -/
def handle_ai_chat (s : DBState) (user_id : Int) (user_message : String)
    (outcome : InferOutcome) : DBState × String :=
  let ctx := get_enhanced_conversation_context user_id s
  let s1 := analyze_and_store_context user_id user_message s
  let _enhanced := prepare_enhanced_prompt ctx.conversation_history
    ctx.context_memory user_message
  match outcome with
  | InferOutcome.timedOut => (s1, timedOutReplyMsg)
  | InferOutcome.value ai_response =>
      let s2 := add_conversation user_id "user" user_message s1
      let s3 := add_conversation user_id "assistant" ai_response s2
      (s3, "🤖 " ++ format_ai_response_improved ai_response)

/-! ## Instrumentation for claim statements -/

/-- A sequence of `addTurn` calls, applied in order to a database state. -/
def applyAdds (ops : List (Int × String × String)) (s : DBState) : DBState :=
  ops.foldl (fun st o => add_conversation o.1 o.2.1 o.2.2 st) s

/-- The turns inserted for user `u` by the call sequence `ops`, in
insertion order, as role-content messages. -/
def userInsertions (u : Int) (ops : List (Int × String × String)) : List Msg :=
  (ops.filter (fun o => o.1 == u)).map (fun o => ⟨o.2.1, o.2.2⟩)

/-! ## Helper lemmas -/

theorem filter_neg_then_pos {α : Type} (p : α → Bool) (l : List α) :
    (l.filter (fun a => !(p a))).filter p = [] := by
  induction l with
  | nil => rfl
  | cons a l ih => by_cases h : p a <;> simp [h, ih]

theorem filter_self_idem {α : Type} (p : α → Bool) (l : List α) :
    (l.filter p).filter p = l.filter p := by
  induction l with
  | nil => rfl
  | cons a l ih => by_cases h : p a <;> simp [h, ih]

theorem store_context_memory_conversations (u : Int) (t d : String) (s : DBState) :
    (store_context_memory u t d s).conversations = s.conversations := rfl

theorem analyze_keeps_conversations (u : Int) (m : String) (s : DBState) :
    (analyze_and_store_context u m s).conversations = s.conversations := by
  unfold analyze_and_store_context
  generalize analyzeUpserts m = l
  induction l generalizing s with
  | nil => rfl
  | cons p rest ih => simpa [store_context_memory] using ih (store_context_memory u p.1 p.2 s)

theorem takeRevRev {α : Type} (l : List α) (k : Nat) :
    (l.reverse.take k).reverse = l.drop (l.length - k) := by
  rw [← List.rtake_eq_reverse_take_reverse, List.rtake]

/-! ## Claims -/

/-- C1: evaluation of the code at the failing input.  From a fresh
database, `store_context_memory(1, "last_request", "A")` followed by
`store_context_memory(1, "last_request", "B")` leaves TWO context facts
of type `last_request` for user 1 (data "B" and "A"), not exactly one
with value "B": the `context_memory` schema carries no uniqueness
constraint on `(user_id, context_type)`, so sqlite's
`INSERT OR REPLACE` appends (and the postgres `ON CONFLICT` errors out,
storing nothing). -/
theorem store_context_memory_duplicates_rows :
    get_context_memory 1 (some "last_request")
        (store_context_memory 1 "last_request" "B"
          (store_context_memory 1 "last_request" "A" initState)) =
      [("last_request", "B"), ("last_request", "A")] ∧
    (get_context_memory 1 (some "last_request")
        (store_context_memory 1 "last_request" "B"
          (store_context_memory 1 "last_request" "A" initState))).length = 2 := by
  exact ⟨rfl, rfl⟩

/-- C2: the decode loop's dispatch on the concrete response line
"braces around 'content': 'hi'" (single-quoted, hence rejected by
`json.loads`) reaches the `eval` arm of src/venice_ai.py line 89: the
line's text IS handed to dynamic evaluation, i.e. executed as code,
contradicting the claim that a line failing strict JSON decoding is
either recovered by a strict secondary parser or skipped. -/
theorem decode_fallback_executes_line :
    decodeLineFate "\x7b'content': 'hi'\x7d" = LineFate.evalExecuted := by
  rfl

/-- C3: when the 30-second ceiling of `asyncio.wait_for` expires, the
handler signals the timeout reply and reaches no `add_conversation`
call: the conversation log is exactly what it was before the attempt
(context facts may have been analysed, but no turn is persisted). -/
theorem timeout_persists_no_turns :
    ∀ (s : DBState) (u : Int) (m : String),
      (handle_ai_chat s u m InferOutcome.timedOut).1.conversations = s.conversations ∧
      (handle_ai_chat s u m InferOutcome.timedOut).2 = timedOutReplyMsg := by
  intro s u m
  constructor
  · show (analyze_and_store_context u m s).conversations = s.conversations
    exact analyze_keeps_conversations u m s
  · rfl

/-- C5: on facts `[(current_project, "Web project: X")]` and history
`[{user, "hi"}]` the assembled prompt is the system message with the
specified content followed by the history entry unchanged, for every
new-message argument; and for all inputs the assembly is independent of
the new-message argument (the parameter is never used). -/
theorem prepare_prompt_example_and_ignores_message :
    (∀ m : String,
      prepare_enhanced_prompt [⟨"user", "hi"⟩]
          [("current_project", "Web project: X")] m =
        [⟨"system",
           "Context from previous conversations: Current project context: Web project: X"⟩,
         ⟨"user", "hi"⟩]) ∧
    ∀ (h : List Msg) (f : List (String × String)) (m1 m2 : String),
      prepare_enhanced_prompt h f m1 = prepare_enhanced_prompt h f m2 := by
  exact ⟨fun m => rfl, fun h f m1 m2 => rfl⟩

/-- C7: clearing a user's history empties both collections reported by
`get_enhanced_conversation_context` and sets `has_context` to false, for
every prior state; and `clear_conversation` is idempotent. -/
theorem clear_empties_context_and_idempotent :
    ∀ (u : Int) (s : DBState),
      (get_enhanced_conversation_context u (clear_conversation u s)).conversation_history = [] ∧
      (get_enhanced_conversation_context u (clear_conversation u s)).context_memory = [] ∧
      (get_enhanced_conversation_context u (clear_conversation u s)).has_context = false ∧
      clear_conversation u (clear_conversation u s) = clear_conversation u s := by
  intro u s
  have hmem : ∀ a ∈ (clear_conversation u s).context_memory, ¬ a.user_id = u := by
    intro a ha
    simp only [clear_conversation] at ha
    have h2 := (List.mem_filter.mp ha).2
    simpa using h2
  have hconv : (clear_conversation u s).conversations.filter
      (fun r => r.user_id == u) = [] := filter_neg_then_pos _ _
  refine ⟨?_, ?_, ?_, ?_⟩
  · simp [get_enhanced_conversation_context, get_conversation_history,
      recentRows, userConvRows, hconv]
  · simp [get_enhanced_conversation_context, get_context_memory]
    exact hmem
  · simp [get_enhanced_conversation_context, get_conversation_history,
      get_context_memory, recentRows, userConvRows, hconv]
    exact hmem
  · simp [clear_conversation, filter_self_idem]

/-- C8: the analyzer performs exactly one `current_project` upsert (value
starting with "Web project: ") on the website-building request, exactly
one `last_request` upsert (value starting with "Improvement request: ")
on the improvement request, and no upserts on "hello there". -/
theorem analyze_store_examples :
    analyzeUpserts "can you build a website for tracking expenses" =
      [("current_project",
        "Web project: can you build a website for tracking expenses")] ∧
    startsWStr "Web project: can you build a website for tracking expenses"
      "Web project: " = true ∧
    analyzeUpserts "please improve the error handling" =
      [("last_request", "Improvement request: please improve the error handling")] ∧
    startsWStr "Improvement request: please improve the error handling"
      "Improvement request: " = true ∧
    analyzeUpserts "hello there" = [] := by
  exact ⟨rfl, rfl, rfl, rfl, rfl⟩

theorem codeBlockPass_no_match (fuel : Nat) (cs : List Char)
    (h : findBlock cs = none) : codeBlockPass fuel cs = cs := by
  cases fuel with
  | zero => rfl
  | succ n => simp [codeBlockPass, h]

theorem inlinePass_no_match (fuel : Nat) (cs : List Char)
    (h : findInline cs = none) : inlinePass fuel cs = cs := by
  cases fuel with
  | zero => rfl
  | succ n => simp [inlinePass, h]

/-- C6 counterexample: the input consisting of one inline backtick span
around `x` contains no fence delimiter (no occurrence of three
consecutive backticks), yet the formatter rewrites it to
`<code>x</code>` rather than passing it through only newline-collapsed
and trimmed (which would leave it unchanged). -/
theorem format_inline_span_not_passthrough :
    hasSubStr "`x`" "```" = false ∧
    format_ai_response_improved "`x`" = "<code>x</code>" ∧
    collapseTrimOnly "`x`" = "`x`" ∧
    ¬ format_ai_response_improved "`x`" = collapseTrimOnly "`x`" := by
  exact ⟨rfl, rfl, rfl, by decide⟩

/-- C6 (amended): the fenced example is rewritten to block-code markup
tagged `python` with content `print(1)`; and every input on which
neither the fenced-block pattern nor the inline-code pattern has a match
passes through transformed only by collapsing runs of 3-or-more newlines
to exactly 2 and trimming surrounding whitespace. -/
theorem format_block_example_and_passthrough :
    format_ai_response_improved "here: ```python\nprint(1)\n```" =
      "here: <pre><code class=\"python\">print(1)</code></pre>" ∧
    ∀ s : String, findBlock s.data = none → findInline s.data = none →
      format_ai_response_improved s = collapseTrimOnly s := by
  refine ⟨rfl, ?_⟩
  intro s hb hi
  simp only [format_ai_response_improved, collapseTrimOnly,
    codeBlockPass_no_match _ _ hb, inlinePass_no_match _ _ hi]

/-- Witness for the amended C6 passthrough: a concrete unbalanced-fence
input satisfying both no-match hypotheses. -/
theorem format_passthrough_witness :
    findBlock ("a ``` b").data = none ∧ findInline ("a ``` b").data = none ∧
    format_ai_response_improved "a ``` b" = collapseTrimOnly "a ``` b" :=
  ⟨rfl, rfl, format_block_example_and_passthrough.2 "a ``` b" rfl rfl⟩

/-- C9: `get_ai_response` is total with result type `String`: each
failure (requests timeout, connection error, any other exception,
non-200 status, whitespace-only decode) returns its canned
human-readable message through the same channel as a genuine model
reply; and the handler persists whatever string arrives — including a
canned failure message — as the assistant turn of the exchange. -/
theorem failures_are_strings_and_persisted :
    get_ai_response ProviderOutcome.timeout = timeoutMsg ∧
    get_ai_response ProviderOutcome.connError = connErrorMsg ∧
    get_ai_response ProviderOutcome.otherError = unexpectedErrorMsg ∧
    (∀ (code : Nat) (body : String), ¬ code = 200 →
      get_ai_response (ProviderOutcome.response code body) = providerErrorMsg) ∧
    (∀ body : String, pyStrip (parseBody body).data = [] →
      get_ai_response (ProviderOutcome.response 200 body) = emptyParseMsg) ∧
    ∀ (s : DBState) (u : Int) (m : String) (o : ProviderOutcome),
      (handle_ai_chat s u m (InferOutcome.value (get_ai_response o))).1.conversations =
        s.conversations ++
          [⟨u, "user", m, (analyze_and_store_context u m s).clock⟩,
           ⟨u, "assistant", get_ai_response o,
             (analyze_and_store_context u m s).clock + 1⟩] := by
  refine ⟨rfl, rfl, rfl, ?_, ?_, ?_⟩
  · intro code body h
    simp [get_ai_response, h]
  · intro body h
    simp [get_ai_response, h]
  · intro s u m o
    simp [handle_ai_chat, add_conversation, analyze_keeps_conversations]

/-- Witness for C9's hypothesised conjuncts at concrete inputs. -/
theorem failures_witness :
    (¬ (500 : Nat) = 200) ∧ pyStrip (parseBody "").data = [] ∧
    get_ai_response (ProviderOutcome.response 500 "x") = providerErrorMsg ∧
    get_ai_response (ProviderOutcome.response 200 "") = emptyParseMsg :=
  ⟨by decide, rfl,
   failures_are_strings_and_persisted.2.2.2.1 500 "x" (by decide),
   failures_are_strings_and_persisted.2.2.2.2.1 "" rfl⟩

/-- C10: the analyzer's keyword triggers are case-insensitive substring
checks with no word-boundary test: any message whose lowercased text
contains "app" — also inside another word — gets a `current_project`
upsert, and any message containing "add" gets a `last_request` upsert. -/
theorem analyze_triggers_are_substring_matches :
    (∀ m : String, hasSubStr (pyLower m) "app" = true →
      ∃ d, ("current_project", d) ∈ analyzeUpserts m) ∧
    (∀ m : String, hasSubStr (pyLower m) "add" = true →
      ∃ d, ("last_request", d) ∈ analyzeUpserts m) := by
  constructor
  · intro m hm
    have hany : (projectKeywords.any fun k => hasSubStr (pyLower m) k) = true := by
      simp [projectKeywords]
      tauto
    refine ⟨projectData m, ?_⟩
    simp only [analyzeUpserts, hany, if_true]
    exact List.mem_append_left _ (List.mem_append_left _ (List.mem_singleton.mpr rfl))
  · intro m hm
    have hany : (improveKeywords.any fun k => hasSubStr (pyLower m) k) = true := by
      simp [improveKeywords]
      tauto
    refine ⟨"Improvement request: " ++ pyTake 100 m, ?_⟩
    simp only [analyzeUpserts, hany, if_true]
    exact List.mem_append_left _ (List.mem_append_right _ (List.mem_singleton.mpr rfl))

/-- Witness for C10 at the concrete messages "happy" and "my address". -/
theorem analyze_triggers_witness :
    hasSubStr (pyLower "happy") "app" = true ∧
    hasSubStr (pyLower "my address") "add" = true ∧
    (∃ d, ("current_project", d) ∈ analyzeUpserts "happy") ∧
    (∃ d, ("last_request", d) ∈ analyzeUpserts "my address") :=
  ⟨rfl, rfl,
   analyze_triggers_are_substring_matches.1 "happy" rfl,
   analyze_triggers_are_substring_matches.2 "my address" rfl⟩

theorem userConvRows_applyAdds (ops : List (Int × String × String)) :
    ∀ (u : Int) (s : DBState),
      (userConvRows u (applyAdds ops s)).map (fun r => (⟨r.role, r.content⟩ : Msg)) =
        (userConvRows u s).map (fun r => (⟨r.role, r.content⟩ : Msg)) ++
          userInsertions u ops := by
  induction ops with
  | nil =>
      intro u s
      simp [applyAdds, userInsertions]
  | cons o ops ih =>
      intro u s
      have h1 : applyAdds (o :: ops) s =
          applyAdds ops (add_conversation o.1 o.2.1 o.2.2 s) := rfl
      rw [h1, ih]
      have h2 : userConvRows u (add_conversation o.1 o.2.1 o.2.2 s) =
          userConvRows u s ++
            (if o.1 == u then [⟨o.1, o.2.1, o.2.2, s.clock⟩] else []) := by
        by_cases h : o.1 == u <;>
          simp [userConvRows, add_conversation, List.filter_append, h]
      rw [h2]
      by_cases h : o.1 == u <;>
        simp [h, userInsertions, List.filter_cons]

theorem applyAdds_bound_pairwise (ops : List (Int × String × String)) :
    ∀ s : DBState,
      (∀ r ∈ s.conversations, r.timestamp < s.clock) →
      s.conversations.Pairwise (fun a b => a.timestamp < b.timestamp) →
      (∀ r ∈ (applyAdds ops s).conversations,
        r.timestamp < (applyAdds ops s).clock) ∧
      (applyAdds ops s).conversations.Pairwise
        (fun a b => a.timestamp < b.timestamp) := by
  induction ops with
  | nil => intro s hb hp; exact ⟨hb, hp⟩
  | cons o ops ih =>
      intro s hb hp
      apply ih
      · intro r hr
        simp only [add_conversation] at hr ⊢
        rcases List.mem_append.mp hr with h | h
        · exact Nat.lt_succ_of_lt (hb r h)
        · rw [List.mem_singleton.mp h]
          exact Nat.lt_succ_self _
      · simp only [add_conversation]
        refine List.pairwise_append.mpr ⟨hp, List.pairwise_singleton _ _, ?_⟩
        intro a ha b hbm
        rw [List.mem_singleton.mp hbm]
        exact hb a ha

/-- C4: from a fresh store, after any sequence of `addTurn` calls, the
history for user `u` with bound `limit` has at most `limit` entries, is
exactly the suffix of the user's insertions keeping the most recent
`limit` of them in oldest-first order, is empty (not an error) when the
user has no insertions, and its row timestamps strictly increase along
the returned order. -/
theorem history_is_recent_suffix :
    ∀ (ops : List (Int × String × String)) (u : Int) (limit : Nat),
      (get_conversation_history u limit (applyAdds ops initState)).length ≤ limit ∧
      get_conversation_history u limit (applyAdds ops initState) =
        (userInsertions u ops).drop ((userInsertions u ops).length - limit) ∧
      (userInsertions u ops = [] →
        get_conversation_history u limit (applyAdds ops initState) = []) ∧
      (recentRows u limit (applyAdds ops initState)).Pairwise
        (fun a b => a.timestamp < b.timestamp) := by
  intro ops u limit
  have hrows : (userConvRows u (applyAdds ops initState)).map
      (fun r => (⟨r.role, r.content⟩ : Msg)) = userInsertions u ops := by
    simpa [userConvRows, initState] using userConvRows_applyAdds ops u initState
  have hdrop : recentRows u limit (applyAdds ops initState) =
      (userConvRows u (applyAdds ops initState)).drop
        ((userConvRows u (applyAdds ops initState)).length - limit) := by
    unfold recentRows
    exact takeRevRev _ _
  have hlen : (userConvRows u (applyAdds ops initState)).length =
      (userInsertions u ops).length := by
    rw [← hrows, List.length_map]
  have hget : get_conversation_history u limit (applyAdds ops initState) =
      (userInsertions u ops).drop ((userInsertions u ops).length - limit) := by
    unfold get_conversation_history
    rw [hdrop, List.map_drop, hrows, hlen]
  refine ⟨?_, hget, ?_, ?_⟩
  · rw [hget, List.length_drop]
    omega
  · intro h
    rw [hget, h]
    simp
  · have hpw := (applyAdds_bound_pairwise ops initState
      (by intro r hr; cases hr) List.Pairwise.nil).2
    have h1 : List.Sublist (userConvRows u (applyAdds ops initState))
        (applyAdds ops initState).conversations := List.filter_sublist _
    have h2 : List.Sublist (recentRows u limit (applyAdds ops initState))
        (userConvRows u (applyAdds ops initState)) := by
      rw [hdrop]
      exact List.drop_sublist _ _
    exact hpw.sublist (h2.trans h1)

/-- Witness for C4's empty-history conjunct: a call sequence containing
nothing for user 2 yields the empty history. -/
theorem history_empty_witness :
    userInsertions 2 [((1 : Int), "user", "hi")] = [] ∧
    get_conversation_history 2 5 (applyAdds [((1 : Int), "user", "hi")] initState) = [] :=
  ⟨rfl, (history_is_recent_suffix [((1 : Int), "user", "hi")] 2 5).2.2.1 rfl⟩
